import Mathlib

/-!
Shallow embedding of `hivemind/averaging/control.py` (class `StepControl` and
enum `AveragingStage`).

Conventions of the embedding:
* Python floats (`DHTExpiration`, `weight`, `scheduled_time`) are IEEE-754
  binary64 values; we represent them by their 64-bit pattern, a `Nat < 2^64`,
  which is exactly what `struct.pack("d", ...)` / `struct.unpack("d", ...)`
  serialize (little-endian on the reference platform).  Predicates of the code
  (`weight >= 0`, `np.isfinite`, `scheduled_time >= deadline`) are defined on
  bit patterns following IEEE-754 comparison semantics (NaN compares false,
  -0.0 == +0.0).
* The shared tensor `self._shared_buffer = torch.zeros([18], ...).share_memory_()`
  is a byte buffer living in a heap of shared allocations: `Heap : Nat → Buf`,
  and a `StepControl` holds the identifier (`bufId`) of its allocation, which
  models the shared-memory reference that pickling preserves.
* `logger.warning(...)` calls are modelled as a returned list of `Warn` values;
  Python `assert` failures and `InvalidStateError` are modelled with `Except`.
* Exact-arithmetic idealization: `get_timeout` does real arithmetic on times
  (`max(0.0, self.deadline - get_dht_time())`), which we embed over `ℚ`.
-/

namespace Hivemind

/-! ### IEEE-754 binary64 bit-pattern helpers -/

/-- Sign bit of a binary64 bit pattern. -/
def f64sign (w : Nat) : Nat := w / 2 ^ 63

/-- Exponent field (11 bits) of a binary64 bit pattern. -/
def f64exp (w : Nat) : Nat := w / 2 ^ 52 % 2 ^ 11

/-- Fraction field (52 bits) of a binary64 bit pattern. -/
def f64frac (w : Nat) : Nat := w % 2 ^ 52

/-- Whether the bit pattern denotes a NaN. -/
def f64isnan (w : Nat) : Bool := f64exp w == 2047 && f64frac w != 0

/-- `np.isfinite` on a binary64 bit pattern: exponent field not all-ones. -/
def f64isfinite (w : Nat) : Bool := f64exp w != 2047

/-- Order key of a non-NaN binary64 bit pattern: monotone with the denoted
value, identifying -0.0 with +0.0 (both map to `2^63`). -/
def f64key (w : Nat) : Nat :=
  if f64sign w == 0 then 2 ^ 63 + w % 2 ^ 63 else 2 ^ 63 - w % 2 ^ 63

/-- Python `a >= b` on floats given as bit patterns: false when either side is
NaN, otherwise the IEEE order. -/
def f64ge (a b : Nat) : Bool :=
  !f64isnan a && !f64isnan b && decide (f64key b ≤ f64key a)

/-! ### Shared byte buffer and heap of shared allocations -/

/-- A byte buffer (the `torch.uint8` shared tensor); indices beyond the
allocated 18 bytes are never touched by the accessors. -/
def Buf : Type := Nat → Nat

/-- Heap of shared allocations, addressed by allocation id. -/
def Heap : Type := Nat → Buf

/-- Replace the buffer stored at allocation `i`. -/
def heapUpdate (hp : Heap) (i : Nat) (b : Buf) : Heap :=
  fun j => if j = i then b else hp j

/-- `struct.pack_into("d", buf, off, w)`: write the 8 little-endian bytes of
the 64-bit pattern `w` at offsets `off .. off+7`. -/
def writeF64 (b : Buf) (off w : Nat) : Buf :=
  fun j => if off ≤ j ∧ j < off + 8 then w / 256 ^ (j - off) % 256 else b j

/-- `struct.unpack("d", buf[off:off+8])`: read the 64-bit pattern stored
little-endian at offsets `off .. off+7`. -/
def readF64 (b : Buf) (off : Nat) : Nat :=
  b off + b (off + 1) * 256 + b (off + 2) * 256 ^ 2 + b (off + 3) * 256 ^ 3 +
    b (off + 4) * 256 ^ 4 + b (off + 5) * 256 ^ 5 + b (off + 6) * 256 ^ 6 +
    b (off + 7) * 256 ^ 7

/-- `buf[i] = v` on the shared byte tensor. -/
def writeByte (b : Buf) (i v : Nat) : Buf :=
  fun j => if j = i then v else b j

/-! ### AveragingStage, errors, warnings -/

/-- The `AveragingStage` enum of `control.py`. -/
inductive AveragingStage where
  | IDLE
  | LOOKING_FOR_GROUP
  | AWAITING_TRIGGER
  | RUNNING_ALLREDUCE
  | FINISHED
deriving DecidableEq

/-- `stage.value`: the numeric tag of each enum member. -/
def AveragingStage.value : AveragingStage → Nat
  | .IDLE => 0
  | .LOOKING_FOR_GROUP => 1
  | .AWAITING_TRIGGER => 2
  | .RUNNING_ALLREDUCE => 3
  | .FINISHED => 4

/-- `AveragingStage(n)`: decode a stage tag; out-of-range tags raise
`ValueError` in Python, modelled as `none`. -/
def AveragingStage.ofTag : Nat → Option AveragingStage
  | 0 => some .IDLE
  | 1 => some .LOOKING_FOR_GROUP
  | 2 => some .AWAITING_TRIGGER
  | 3 => some .RUNNING_ALLREDUCE
  | 4 => some .FINISHED
  | _ => none

/-- Python exceptions that the embedded operations can raise. -/
inductive PyErr where
  | assertionError
  | invalidStateError
deriving DecidableEq

/-- The `logger.warning(...)` messages emitted by `StepControl`. -/
inductive Warn where
  | changingScheduledTimeAfterStart
  | scheduledTimeAfterDeadline
  | changingWeightAfterStart
  | triggerAlreadySet
deriving DecidableEq

/-! ### The trigger gate (MPFuture) -/

/-- Modelled from the spec: `hivemind.utils.MPFuture` is not under `src/`;
the spec describes it as a one-shot cross-process future ("a one-shot future
with at most one resolution", resolved at most once, cancellable), with
operations `set_result`, `cancel`, `done`. -/
inductive FutState where
  | pending
  | resolved
  | cancelled
deriving DecidableEq

/-- Modelled from the spec: `MPFuture.done()` — true once resolved or
cancelled. -/
def futDone : FutState → Bool
  | .pending => false
  | _ => true

/-- Modelled from the spec: `MPFuture.set_result` on a one-shot future with
at most one resolution — resolving an already-terminal future is an
`InvalidStateError`, the standard future contract. -/
def futSetResult : FutState → Except PyErr FutState
  | .pending => .ok .resolved
  | _ => .error .invalidStateError

/-- Modelled from the spec: `MPFuture.cancel()` — cancels a pending future
and returns whether cancellation took effect; idempotent on terminal
futures. -/
def futCancel : FutState → Bool × FutState
  | .pending => (true, .cancelled)
  | s => (false, s)

/-! ### StepControl state and accessors -/

/-- The per-process state of a `StepControl` handle: the id of its shared
18-byte allocation, the `can_modify` attribute (absent until the `stage`
setter first assigns it), the attached trigger, and the immutable attributes
`_gather_binary`, `_deadline` (a float, kept as its bit pattern),
`_allow_retries`. -/
structure StepControl where
  bufId : Nat
  canModify : Option Bool
  trigger : Option FutState
  gatherBinary : List Nat
  deadline : Nat
  allowRetries : Bool
deriving DecidableEq

/-- `self.began_allreduce` getter: `bool(self._shared_buffer[17].item())`. -/
def beganAllreduce (hp : Heap) (s : StepControl) : Bool :=
  hp s.bufId 17 != 0

/-- `self.scheduled_time` getter: `struct.unpack("d", buf[0:8])[0]`. -/
def getScheduledTime (hp : Heap) (s : StepControl) : Nat :=
  readF64 (hp s.bufId) 0

/-- `self.weight` getter: `struct.unpack("d", buf[8:16])[0]`. -/
def getWeight (hp : Heap) (s : StepControl) : Nat :=
  readF64 (hp s.bufId) 8

/-- `self.stage` getter: `AveragingStage(self._shared_buffer[16].item())`. -/
def getStage (hp : Heap) (s : StepControl) : Option AveragingStage :=
  AveragingStage.ofTag (hp s.bufId 16)

/-- `scheduled_time` setter: warn if allreduce already began, warn if the new
time is at or past the deadline, then unconditionally
`struct.pack_into("d", buf, 0, float(scheduled_time))`. -/
def setScheduledTime (hp : Heap) (s : StepControl) (t : Nat) :
    Heap × List Warn :=
  let w1 := if beganAllreduce hp s then [Warn.changingScheduledTimeAfterStart]
            else []
  let w2 := if f64ge t s.deadline then [Warn.scheduledTimeAfterDeadline]
            else []
  (heapUpdate hp s.bufId (writeF64 (hp s.bufId) 0 t), w1 ++ w2)

/-- `weight` setter: `assert weight >= 0 and np.isfinite(weight)`, warn if
allreduce already began, then `struct.pack_into("d", buf, 8, float(weight))`.
An assertion failure returns before anything is written. -/
def setWeight (hp : Heap) (s : StepControl) (w : Nat) :
    Except PyErr (Heap × List Warn) :=
  if f64ge w 0 && f64isfinite w then
    .ok (heapUpdate hp s.bufId (writeF64 (hp s.bufId) 8 w),
      if beganAllreduce hp s then [Warn.changingWeightAfterStart] else [])
  else
    .error .assertionError

/-- `stage` setter: if the new stage is `RUNNING_ALLREDUCE`, set
`self.can_modify = False`; then `self._shared_buffer[16] = stage.value`. -/
def setStage (hp : Heap) (s : StepControl) (st : AveragingStage) :
    Heap × StepControl :=
  let s1 := if st = .RUNNING_ALLREDUCE then { s with canModify := some false }
            else s
  (heapUpdate hp s.bufId (writeByte (hp s.bufId) 16 st.value), s1)

/-- `began_allreduce` setter: `self._shared_buffer[17] = int(value)`. -/
def setBegan (hp : Heap) (s : StepControl) (v : Bool) : Heap :=
  heapUpdate hp s.bufId (writeByte (hp s.bufId) 17 (if v then 1 else 0))

/-- `get_timeout`: `max(0.0, self.deadline - get_dht_time())`, embedded over
exact arithmetic; `now` is the current value of the shared monotonic DHT time
source. -/
def get_timeout (deadline now : ℚ) : ℚ := max 0 (deadline - now)

/-- `allow_allreduce`: assert a trigger is attached; if it is already done,
warn "Trigger is already set"; then (unconditionally, in this source
revision) call `self._trigger.set_result(None)`. -/
def allow_allreduce (s : StepControl) :
    Except PyErr (StepControl × List Warn) :=
  match s.trigger with
  | none => .error .assertionError
  | some t =>
    let ws := if futDone t then [Warn.triggerAlreadySet] else []
    match futSetResult t with
    | .error e => .error e
    | .ok t1 => .ok ({ s with trigger := some t1 }, ws)

/-- `cancel`: `if self._trigger is not None: self._trigger.cancel()`, then
`return self.cancel()` — the body re-invokes itself.  The recursion is
embedded with an explicit fuel parameter bounding the recursion depth;
`none` means the call has not returned within that depth. -/
def cancelFuel : Nat → StepControl → Option (Bool × StepControl)
  | 0, _ => none
  | fuel + 1, s =>
    let s1 := match s.trigger with
      | some t => { s with trigger := some (futCancel t).2 }
      | none => s
    cancelFuel fuel s1

/-- `__init__(scheduled_time, deadline, allow_retries, weight, gather_binary)`:
store the immutable attributes, leave `_trigger = None`, allocate the shared
buffer as `torch.zeros([18])` (at a caller-chosen fresh allocation id), then
run the property setters `stage = IDLE`, `scheduled_time = ...`,
`weight = ...` (which can fail its assert), `began_allreduce = False`. -/
def init (hp : Heap) (bufId : Nat) (scheduledTime deadline : Nat)
    (allowRetries : Bool) (weight : Nat) (gatherBinary : List Nat) :
    Except PyErr (Heap × StepControl × List Warn) :=
  let hp0 := heapUpdate hp bufId (fun _ => 0)
  let s0 : StepControl :=
    { bufId := bufId, canModify := none, trigger := none,
      gatherBinary := gatherBinary, deadline := deadline,
      allowRetries := allowRetries }
  let st1 := setStage hp0 s0 .IDLE
  let st2 := setScheduledTime st1.1 st1.2 scheduledTime
  match setWeight st2.1 st1.2 weight with
  | .error e => .error e
  | .ok (hp3, w2) => .ok (setBegan hp3 st1.2 false, st1.2, st2.2 ++ w2)

/-- The dict built by `__getstate__`: the super() part of the state is
opaque to this component and omitted; the component's own contribution is
`_trigger`, `_shared_buffer` (the shared allocation reference), and
`immutable_params = (_gather_binary, _deadline, _allow_retries)`. -/
structure PickleState where
  trigger : Option FutState
  sharedBuffer : Nat
  immutableParams : List Nat × Nat × Bool
deriving DecidableEq

/-- `__getstate__`. -/
def getstate (s : StepControl) : PickleState :=
  { trigger := s.trigger, sharedBuffer := s.bufId,
    immutableParams := (s.gatherBinary, s.deadline, s.allowRetries) }

/-- `__setstate__`: overwrite `_trigger`, `_shared_buffer`,
`_gather_binary`, `_deadline`, `_allow_retries` from the state dict. -/
def setstate (s : StepControl) (st : PickleState) : StepControl :=
  { s with
    trigger := st.trigger, bufId := st.sharedBuffer,
    gatherBinary := st.immutableParams.1,
    deadline := st.immutableParams.2.1,
    allowRetries := st.immutableParams.2.2 }

/-- Helper: whether an `Except` computation succeeded. -/
def exOk {ε α : Type} : Except ε α → Bool
  | .ok _ => true
  | .error _ => false

/-- Helper: the heap produced by a successful setter call, or the unchanged
heap `d` when the call raised. -/
def okHeap (d : Heap) : Except PyErr (Heap × List Warn) → Heap
  | .ok (h, _) => h
  | .error _ => d

/-! ### Concrete example states used by witnesses and counterexamples -/

/-- The all-zero heap (every allocation freshly zeroed). -/
def heap0 : Heap := fun _ _ => 0

/-- Bit pattern of the float `1.0`. -/
def bitsOne : Nat := 4607182418800017408

/-- Bit pattern of the float `4.0`. -/
def bitsFour : Nat := 4616189618054758400

/-- A concrete handle: allocation 0, no attribute `can_modify` yet, no
trigger, empty gather payload, deadline `4.0`, retries allowed. -/
def ctrl0 : StepControl :=
  { bufId := 0, canModify := none, trigger := none, gatherBinary := [],
    deadline := bitsFour, allowRetries := true }

/-- `ctrl0` with a pending trigger attached. -/
def ctrlPending : StepControl := { ctrl0 with trigger := some .pending }

/-- `ctrl0` with an already-resolved trigger attached. -/
def ctrlResolved : StepControl := { ctrl0 with trigger := some .resolved }

/-- `ctrl0` after its `can_modify` attribute has been set to `False`. -/
def ctrlFrozen : StepControl := { ctrl0 with canModify := some false }

/-- A heap whose allocation 0 has `began_allreduce = 1` and zeros
elsewhere. -/
def heapBegan : Heap := fun _ => writeByte (fun _ => 0) 17 1

/-- Helper: the heap and handle produced by a successful `__init__`, or the
inputs unchanged when construction raised. -/
def initOut (hp : Heap) (bufId scheduledTime deadline : Nat)
    (allowRetries : Bool) (weight : Nat) (gatherBinary : List Nat) :
    Heap × StepControl :=
  match init hp bufId scheduledTime deadline allowRetries weight gatherBinary with
  | .ok (h, s, _) => (h, s)
  | .error _ => (hp, ctrl0)

/-! ### Helper lemmas about the byte buffer -/

theorem readF64_writeF64 (b : Buf) (off w : Nat) (h : w < 2 ^ 64) :
    readF64 (writeF64 b off w) off = w := by
  simp only [readF64, writeF64]
  rw [if_pos (show off ≤ off ∧ off < off + 8 by omega),
    if_pos (show off ≤ off + 1 ∧ off + 1 < off + 8 by omega),
    if_pos (show off ≤ off + 2 ∧ off + 2 < off + 8 by omega),
    if_pos (show off ≤ off + 3 ∧ off + 3 < off + 8 by omega),
    if_pos (show off ≤ off + 4 ∧ off + 4 < off + 8 by omega),
    if_pos (show off ≤ off + 5 ∧ off + 5 < off + 8 by omega),
    if_pos (show off ≤ off + 6 ∧ off + 6 < off + 8 by omega),
    if_pos (show off ≤ off + 7 ∧ off + 7 < off + 8 by omega)]
  simp only [Nat.sub_self, Nat.add_sub_cancel_left]
  norm_num
  omega

theorem writeF64_frame (b : Buf) (off w j : Nat) (h : j < off ∨ off + 8 ≤ j) :
    writeF64 b off w j = b j := by
  simp only [writeF64]
  rw [if_neg]
  omega

theorem writeByte_frame (b : Buf) (i v j : Nat) (h : j ≠ i) :
    writeByte b i v j = b j := by
  simp only [writeByte]
  rw [if_neg h]

theorem readF64_congr (b b' : Buf) (off : Nat)
    (h : ∀ k, k < 8 → b (off + k) = b' (off + k)) :
    readF64 b off = readF64 b' off := by
  have h0 := h 0 (by omega)
  have h1 := h 1 (by omega)
  have h2 := h 2 (by omega)
  have h3 := h 3 (by omega)
  have h4 := h 4 (by omega)
  have h5 := h 5 (by omega)
  have h6 := h 6 (by omega)
  have h7 := h 7 (by omega)
  simp only [Nat.add_zero] at h0
  simp only [readF64, h0, h1, h2, h3, h4, h5, h6, h7]

theorem heapUpdate_same (hp : Heap) (i : Nat) (b : Buf) :
    heapUpdate hp i b i = b := by
  simp [heapUpdate]

theorem readF64_writeF64_disjoint (b : Buf) (o1 w o2 : Nat)
    (h : o1 + 8 ≤ o2 ∨ o2 + 8 ≤ o1) :
    readF64 (writeF64 b o1 w) o2 = readF64 b o2 := by
  apply readF64_congr
  intro k hk
  apply writeF64_frame
  omega

theorem readF64_writeByte (b : Buf) (i v o : Nat) (h : i < o ∨ o + 8 ≤ i) :
    readF64 (writeByte b i v) o = readF64 b o := by
  apply readF64_congr
  intro k hk
  apply writeByte_frame
  omega

theorem setScheduledTime_heap (hp : Heap) (s : StepControl) (t : Nat) :
    (setScheduledTime hp s t).1 =
      heapUpdate hp s.bufId (writeF64 (hp s.bufId) 0 t) := rfl

theorem setStage_heap (hp : Heap) (s : StepControl) (st : AveragingStage) :
    (setStage hp s st).1 =
      heapUpdate hp s.bufId (writeByte (hp s.bufId) 16 st.value) := rfl

theorem setWeight_ok (hp : Heap) (s : StepControl) (w : Nat)
    (hw : (f64ge w 0 && f64isfinite w) = true) :
    setWeight hp s w =
      Except.ok (heapUpdate hp s.bufId (writeF64 (hp s.bufId) 8 w),
        if beganAllreduce hp s then [Warn.changingWeightAfterStart] else []) := by
  simp [setWeight, hw]

/-! ### Claim theorems -/

/-- C1: the spec demands that `cancel()` cancels the attached trigger (when
present), then cancels the handle's own future resolution, returns, and is
idempotent on repeated calls.  The code's `cancel` instead ends with
`return self.cancel()`, re-invoking itself unconditionally: for every
recursion budget `fuel` and every handle state, the call has not returned —
it never reaches the base future's cancellation and never delivers a
`Cancelled` outcome. -/
theorem cancel_never_returns (fuel : Nat) (s : StepControl) :
    cancelFuel fuel s = none := by
  induction fuel generalizing s with
  | zero => rfl
  | succ n ih => exact ih _

/-- C2: the spec demands that a second `allow_allreduce()` after the trigger
gate is resolved is a warning-only no-op that never raises.  In the code the
`done()` check only logs; `set_result(None)` is then called unconditionally,
and resolving the one-shot gate a second time is an `InvalidStateError`: on a
concrete handle the first call succeeds, the second raises. -/
theorem allow_allreduce_second_call_raises :
    allow_allreduce ctrlPending = Except.ok (ctrlResolved, []) ∧
    allow_allreduce ctrlResolved = Except.error PyErr.invalidStateError :=
  ⟨rfl, rfl⟩

/-- C4: the `weight` setter succeeds exactly when the new value is
non-negative and finite (`assert weight >= 0 and np.isfinite(weight)`); a
successful write stores the value at bytes 8-15, and an invalid value raises
the assertion before anything is written, so shared storage is untouched. -/
theorem weight_setter_validates (hp : Heap) (s : StepControl) (w : Nat)
    (hlt : w < 2 ^ 64) :
    (exOk (setWeight hp s w) = true ↔ (f64ge w 0 && f64isfinite w) = true) ∧
    ((f64ge w 0 && f64isfinite w) = true →
      getWeight (okHeap hp (setWeight hp s w)) s = w) ∧
    ((f64ge w 0 && f64isfinite w) = false →
      setWeight hp s w = Except.error PyErr.assertionError) := by
  refine ⟨?_, ?_, ?_⟩
  · by_cases hc : (f64ge w 0 && f64isfinite w) = true
    · simp [setWeight, hc, exOk]
    · simp [setWeight, hc, exOk]
  · intro hc
    rw [setWeight_ok hp s w hc]
    simp only [okHeap, getWeight, heapUpdate_same]
    exact readF64_writeF64 _ _ _ hlt
  · intro hc
    simp [setWeight, hc]

/-- C4 witness: the theorem applied to a concrete heap, handle, and the bit
pattern of the valid weight `1.0`. -/
theorem weight_setter_validates_witness :
    (exOk (setWeight heap0 ctrl0 bitsOne) = true ↔
      (f64ge bitsOne 0 && f64isfinite bitsOne) = true) ∧
    ((f64ge bitsOne 0 && f64isfinite bitsOne) = true →
      getWeight (okHeap heap0 (setWeight heap0 ctrl0 bitsOne)) ctrl0 = bitsOne) ∧
    ((f64ge bitsOne 0 && f64isfinite bitsOne) = false →
      setWeight heap0 ctrl0 bitsOne = Except.error PyErr.assertionError) :=
  weight_setter_validates heap0 ctrl0 bitsOne (by decide)

/-- C5 counterexample: the claim says no API operation ever resets
`began_allreduce` to false once it is true, but the setter stores whatever
value it is given: on a heap where the flag is set, `began_allreduce = False`
resets it. -/
theorem began_allreduce_reset_counterexample :
    beganAllreduce heapBegan ctrl0 = true ∧
    beganAllreduce (setBegan heapBegan ctrl0 false) ctrl0 = false := by
  decide

/-- C5 amended: the `began_allreduce` setter stores exactly `int(value)` at
byte 17, so writing `False` resets the flag; monotonicity is a usage
convention of the protocol, not enforced by the handle's API. -/
theorem setBegan_stores_given_value (hp : Heap) (s : StepControl) (v : Bool) :
    beganAllreduce (setBegan hp s v) s = v := by
  cases v <;> simp [beganAllreduce, setBegan, heapUpdate, writeByte]

/-- C6: `get_timeout()` returns exactly `max(0, deadline - now)`, is never
negative, and is monotonically non-increasing as the shared time source
advances. -/
theorem get_timeout_matches_spec (deadline t1 t2 : ℚ) (h : t1 ≤ t2) :
    get_timeout deadline t1 = max 0 (deadline - t1) ∧
    0 ≤ get_timeout deadline t1 ∧
    get_timeout deadline t2 ≤ get_timeout deadline t1 :=
  ⟨rfl, le_max_left 0 _, max_le_max (le_refl 0) (by linarith)⟩

/-- C6 witness: the theorem applied at deadline 5 and observation times
1 ≤ 3. -/
theorem get_timeout_matches_spec_witness :
    get_timeout 5 1 = max 0 (5 - 1) ∧
    0 ≤ get_timeout 5 1 ∧
    get_timeout 5 3 ≤ get_timeout 5 1 :=
  get_timeout_matches_spec 5 1 3 (by norm_num)

/-- C3 counterexample: the claim says that while `can_modify = False` is set
every user-facing scheduling mutation is rejected rather than applied to
shared storage; but on a concrete handle, after setting the stage to
`RUNNING_ALLREDUCE` (which does set `can_modify = False`), assigning
`scheduled_time` still succeeds and the stored value changes from 0 to 3. -/
theorem frozen_schedule_not_rejected_counterexample :
    (setStage heap0 ctrl0 .RUNNING_ALLREDUCE).2.canModify = some false ∧
    getScheduledTime (setStage heap0 ctrl0 .RUNNING_ALLREDUCE).1
      (setStage heap0 ctrl0 .RUNNING_ALLREDUCE).2 = 0 ∧
    getScheduledTime
      (setScheduledTime (setStage heap0 ctrl0 .RUNNING_ALLREDUCE).1
        (setStage heap0 ctrl0 .RUNNING_ALLREDUCE).2 3).1
      (setStage heap0 ctrl0 .RUNNING_ALLREDUCE).2 = 3 := by
  decide

/-- C3 amended: setting `stage` to `RUNNING_ALLREDUCE` does set
`can_modify = False` on the handle, but the `scheduled_time` and `weight`
setters never consult that flag: while it is set, a scheduling mutation
still succeeds and is applied to shared storage (with at most advisory
warnings). -/
theorem running_allreduce_sets_unenforced_flag (hp : Heap) (s : StepControl)
    (t w : Nat) (ht : t < 2 ^ 64) (_hcm : s.canModify = some false)
    (hw : (f64ge w 0 && f64isfinite w) = true) :
    (setStage hp s .RUNNING_ALLREDUCE).2.canModify = some false ∧
    getScheduledTime (setScheduledTime hp s t).1 s = t ∧
    exOk (setWeight hp s w) = true := by
  refine ⟨rfl, ?_, ?_⟩
  · simp only [getScheduledTime, setScheduledTime_heap, heapUpdate_same]
    exact readF64_writeF64 _ _ _ ht
  · rw [setWeight_ok hp s w hw]
    rfl

/-- C3 amended witness: the theorem applied to a concrete frozen handle,
scheduled time bit pattern 3, weight `1.0`. -/
theorem running_allreduce_sets_unenforced_flag_witness :
    (setStage heap0 ctrlFrozen .RUNNING_ALLREDUCE).2.canModify = some false ∧
    getScheduledTime (setScheduledTime heap0 ctrlFrozen 3).1 ctrlFrozen = 3 ∧
    exOk (setWeight heap0 ctrlFrozen bitsOne) = true :=
  running_allreduce_sets_unenforced_flag heap0 ctrlFrozen 3 bitsOne
    (by norm_num) rfl (by decide)

/-- C7: the four fields of the 18-byte shared block live at non-overlapping
fixed offsets (`scheduled_time` 0-7, `weight` 8-15, `stage` 16,
`began_allreduce` 17): each setter's value is read back exactly (modulo the
field's binary encoding), and each setter leaves the other three fields'
stored bytes unchanged. -/
theorem shared_block_layout (hp : Heap) (s : StepControl) (t w : Nat)
    (st : AveragingStage) (v : Bool) (ht : t < 2 ^ 64) (hw : w < 2 ^ 64)
    (hwv : (f64ge w 0 && f64isfinite w) = true) :
    (getScheduledTime (setScheduledTime hp s t).1 s = t ∧
      getWeight (setScheduledTime hp s t).1 s = getWeight hp s ∧
      (setScheduledTime hp s t).1 s.bufId 16 = hp s.bufId 16 ∧
      (setScheduledTime hp s t).1 s.bufId 17 = hp s.bufId 17) ∧
    (getWeight (okHeap hp (setWeight hp s w)) s = w ∧
      getScheduledTime (okHeap hp (setWeight hp s w)) s =
        getScheduledTime hp s ∧
      okHeap hp (setWeight hp s w) s.bufId 16 = hp s.bufId 16 ∧
      okHeap hp (setWeight hp s w) s.bufId 17 = hp s.bufId 17) ∧
    (getStage (setStage hp s st).1 s = some st ∧
      getScheduledTime (setStage hp s st).1 s = getScheduledTime hp s ∧
      getWeight (setStage hp s st).1 s = getWeight hp s ∧
      (setStage hp s st).1 s.bufId 17 = hp s.bufId 17) ∧
    (beganAllreduce (setBegan hp s v) s = v ∧
      getScheduledTime (setBegan hp s v) s = getScheduledTime hp s ∧
      getWeight (setBegan hp s v) s = getWeight hp s ∧
      setBegan hp s v s.bufId 16 = hp s.bufId 16) := by
  rw [setWeight_ok hp s w hwv]
  refine ⟨⟨?_, ?_, ?_, ?_⟩, ⟨?_, ?_, ?_, ?_⟩, ⟨?_, ?_, ?_, ?_⟩,
    ⟨?_, ?_, ?_, ?_⟩⟩
  · simp only [getScheduledTime, setScheduledTime_heap, heapUpdate_same]
    exact readF64_writeF64 _ _ _ ht
  · simp only [getWeight, setScheduledTime_heap, heapUpdate_same]
    exact readF64_writeF64_disjoint _ _ _ _ (by omega)
  · simp only [setScheduledTime_heap, heapUpdate_same]
    exact writeF64_frame _ _ _ _ (by omega)
  · simp only [setScheduledTime_heap, heapUpdate_same]
    exact writeF64_frame _ _ _ _ (by omega)
  · simp only [okHeap, getWeight, heapUpdate_same]
    exact readF64_writeF64 _ _ _ hw
  · simp only [okHeap, getScheduledTime, heapUpdate_same]
    exact readF64_writeF64_disjoint _ _ _ _ (by omega)
  · simp only [okHeap, heapUpdate_same]
    exact writeF64_frame _ _ _ _ (by omega)
  · simp only [okHeap, heapUpdate_same]
    exact writeF64_frame _ _ _ _ (by omega)
  · simp only [getStage, setStage_heap, heapUpdate_same, writeByte]
    cases st <;> rfl
  · simp only [getScheduledTime, setStage_heap, heapUpdate_same]
    exact readF64_writeByte _ _ _ _ (by omega)
  · simp only [getWeight, setStage_heap, heapUpdate_same]
    exact readF64_writeByte _ _ _ _ (by omega)
  · simp only [setStage_heap, heapUpdate_same]
    exact writeByte_frame _ _ _ _ (by omega)
  · cases v <;>
      simp [beganAllreduce, setBegan, heapUpdate_same, writeByte]
  · simp only [getScheduledTime, setBegan, heapUpdate_same]
    exact readF64_writeByte _ _ _ _ (by omega)
  · simp only [getWeight, setBegan, heapUpdate_same]
    exact readF64_writeByte _ _ _ _ (by omega)
  · simp only [setBegan, heapUpdate_same]
    exact writeByte_frame _ _ _ _ (by omega)

/-- C7 witness: the theorem applied to a concrete heap and handle, scheduled
time bit pattern 3, weight `1.0`, stage `AWAITING_TRIGGER`, began flag
`true`. -/
theorem shared_block_layout_witness :
    (getScheduledTime (setScheduledTime heap0 ctrl0 3).1 ctrl0 = 3 ∧
      getWeight (setScheduledTime heap0 ctrl0 3).1 ctrl0 = getWeight heap0 ctrl0 ∧
      (setScheduledTime heap0 ctrl0 3).1 ctrl0.bufId 16 = heap0 ctrl0.bufId 16 ∧
      (setScheduledTime heap0 ctrl0 3).1 ctrl0.bufId 17 = heap0 ctrl0.bufId 17) ∧
    (getWeight (okHeap heap0 (setWeight heap0 ctrl0 bitsOne)) ctrl0 = bitsOne ∧
      getScheduledTime (okHeap heap0 (setWeight heap0 ctrl0 bitsOne)) ctrl0 =
        getScheduledTime heap0 ctrl0 ∧
      okHeap heap0 (setWeight heap0 ctrl0 bitsOne) ctrl0.bufId 16 =
        heap0 ctrl0.bufId 16 ∧
      okHeap heap0 (setWeight heap0 ctrl0 bitsOne) ctrl0.bufId 17 =
        heap0 ctrl0.bufId 17) ∧
    (getStage (setStage heap0 ctrl0 .AWAITING_TRIGGER).1 ctrl0 =
        some .AWAITING_TRIGGER ∧
      getScheduledTime (setStage heap0 ctrl0 .AWAITING_TRIGGER).1 ctrl0 =
        getScheduledTime heap0 ctrl0 ∧
      getWeight (setStage heap0 ctrl0 .AWAITING_TRIGGER).1 ctrl0 =
        getWeight heap0 ctrl0 ∧
      (setStage heap0 ctrl0 .AWAITING_TRIGGER).1 ctrl0.bufId 17 =
        heap0 ctrl0.bufId 17) ∧
    (beganAllreduce (setBegan heap0 ctrl0 true) ctrl0 = true ∧
      getScheduledTime (setBegan heap0 ctrl0 true) ctrl0 =
        getScheduledTime heap0 ctrl0 ∧
      getWeight (setBegan heap0 ctrl0 true) ctrl0 = getWeight heap0 ctrl0 ∧
      setBegan heap0 ctrl0 true ctrl0.bufId 16 = heap0 ctrl0.bufId 16) :=
  shared_block_layout heap0 ctrl0 3 bitsOne .AWAITING_TRIGGER true
    (by norm_num) (by decide) (by decide)

/-- C9: pickling a handle and restoring it preserves `gather_binary`,
`deadline`, `allow_retries`, the attached trigger, and the shared-buffer
reference; consequently a `scheduled_time` written through the original
handle is read back through the restored one. -/
theorem pickle_roundtrip_preserves_state (s s0 : StepControl) (hp : Heap)
    (t : Nat) (ht : t < 2 ^ 64) :
    (setstate s0 (getstate s)).gatherBinary = s.gatherBinary ∧
    (setstate s0 (getstate s)).deadline = s.deadline ∧
    (setstate s0 (getstate s)).allowRetries = s.allowRetries ∧
    (setstate s0 (getstate s)).trigger = s.trigger ∧
    (setstate s0 (getstate s)).bufId = s.bufId ∧
    getScheduledTime (setScheduledTime hp s t).1
      (setstate s0 (getstate s)) = t := by
  refine ⟨rfl, rfl, rfl, rfl, rfl, ?_⟩
  show readF64 (heapUpdate hp s.bufId (writeF64 (hp s.bufId) 0 t) s.bufId) 0 = t
  rw [heapUpdate_same]
  exact readF64_writeF64 _ _ _ ht

/-- C9 witness: the theorem applied to two distinct concrete handles and the
scheduled time bit pattern 3. -/
theorem pickle_roundtrip_preserves_state_witness :
    (setstate ctrlFrozen (getstate ctrlPending)).gatherBinary =
      ctrlPending.gatherBinary ∧
    (setstate ctrlFrozen (getstate ctrlPending)).deadline =
      ctrlPending.deadline ∧
    (setstate ctrlFrozen (getstate ctrlPending)).allowRetries =
      ctrlPending.allowRetries ∧
    (setstate ctrlFrozen (getstate ctrlPending)).trigger =
      ctrlPending.trigger ∧
    (setstate ctrlFrozen (getstate ctrlPending)).bufId =
      ctrlPending.bufId ∧
    getScheduledTime (setScheduledTime heap0 ctrlPending 3).1
      (setstate ctrlFrozen (getstate ctrlPending)) = 3 :=
  pickle_roundtrip_preserves_state ctrlPending ctrlFrozen heap0 3 (by norm_num)

/-- C10: the `scheduled_time` setter never rejects a write: for every handle
state (any stage byte, any `began_allreduce` byte, and regardless of the
`can_modify` attribute) it stores the new value into the shared block, the
getter then observes it, and the only feedback channel is the returned
warning list; the setter's output is moreover insensitive to the
`can_modify` attribute. -/
theorem scheduled_time_setter_always_writes (hp : Heap) (s : StepControl)
    (t : Nat) (cm : Option Bool) (ht : t < 2 ^ 64) :
    getScheduledTime (setScheduledTime hp s t).1 s = t ∧
    setScheduledTime hp { s with canModify := cm } t =
      setScheduledTime hp s t := by
  refine ⟨?_, rfl⟩
  simp only [getScheduledTime, setScheduledTime_heap, heapUpdate_same]
  exact readF64_writeF64 _ _ _ ht

/-- C10 witness: the theorem applied to a heap whose `began_allreduce` byte
is already 1 and a handle whose `can_modify` attribute is `False`. -/
theorem scheduled_time_setter_always_writes_witness :
    getScheduledTime (setScheduledTime heapBegan ctrlFrozen 3).1 ctrlFrozen = 3 ∧
    setScheduledTime heapBegan { ctrlFrozen with canModify := some false } 3 =
      setScheduledTime heapBegan ctrlFrozen 3 :=
  scheduled_time_setter_always_writes heapBegan ctrlFrozen 3 (some false)
    (by norm_num)

/-- C8: constructing a handle with a valid weight succeeds, and immediately
afterwards the `stage` field reads as `IDLE` and `began_allreduce` reads as
false. -/
theorem init_starts_idle_unbegun (hp : Heap) (bufId st dl : Nat) (ar : Bool)
    (w : Nat) (g : List Nat) (hw : (f64ge w 0 && f64isfinite w) = true) :
    exOk (init hp bufId st dl ar w g) = true ∧
    getStage (initOut hp bufId st dl ar w g).1
      (initOut hp bufId st dl ar w g).2 = some .IDLE ∧
    beganAllreduce (initOut hp bufId st dl ar w g).1
      (initOut hp bufId st dl ar w g).2 = false := by
  have hinit :
      init hp bufId st dl ar w g =
        Except.ok
          (setBegan
            (okHeap
              (setScheduledTime
                (setStage (heapUpdate hp bufId (fun _ => 0))
                  ⟨bufId, none, none, g, dl, ar⟩ .IDLE).1
                ⟨bufId, none, none, g, dl, ar⟩ st).1
              (setWeight
                (setScheduledTime
                  (setStage (heapUpdate hp bufId (fun _ => 0))
                    ⟨bufId, none, none, g, dl, ar⟩ .IDLE).1
                  ⟨bufId, none, none, g, dl, ar⟩ st).1
                ⟨bufId, none, none, g, dl, ar⟩ w))
            ⟨bufId, none, none, g, dl, ar⟩ false,
          ⟨bufId, none, none, g, dl, ar⟩,
          (setScheduledTime
            (setStage (heapUpdate hp bufId (fun _ => 0))
              ⟨bufId, none, none, g, dl, ar⟩ .IDLE).1
            ⟨bufId, none, none, g, dl, ar⟩ st).2 ++
          (if beganAllreduce
              (setScheduledTime
                (setStage (heapUpdate hp bufId (fun _ => 0))
                  ⟨bufId, none, none, g, dl, ar⟩ .IDLE).1
                ⟨bufId, none, none, g, dl, ar⟩ st).1
              ⟨bufId, none, none, g, dl, ar⟩ = true
            then [Warn.changingWeightAfterStart] else [])) := by
    simp only [init]
    rw [setWeight_ok _ _ _ hw]
    simp only [okHeap, setWeight_ok _ _ _ hw]
    rfl
  refine ⟨?_, ?_, ?_⟩
  · rw [hinit]
    rfl
  · simp only [initOut, hinit, getStage, setBegan, setScheduledTime_heap,
      setStage_heap, okHeap, setWeight_ok, heapUpdate_same]
    rw [setWeight_ok _ _ _ hw]
    simp only [heapUpdate_same]
    rw [writeByte_frame _ _ _ _ (by omega),
      writeF64_frame _ _ _ _ (by omega),
      writeF64_frame _ _ _ _ (by omega)]
    simp [writeByte, AveragingStage.value, AveragingStage.ofTag]
  · simp only [initOut, hinit, beganAllreduce, setBegan, heapUpdate_same]
    simp [writeByte]

/-- C8 witness: the theorem applied to a concrete construction with
scheduled time bit pattern 3, deadline `4.0`, weight `1.0`. -/
theorem init_starts_idle_unbegun_witness :
    exOk (init heap0 5 3 bitsFour true bitsOne [7]) = true ∧
    getStage (initOut heap0 5 3 bitsFour true bitsOne [7]).1
      (initOut heap0 5 3 bitsFour true bitsOne [7]).2 = some .IDLE ∧
    beganAllreduce (initOut heap0 5 3 bitsFour true bitsOne [7]).1
      (initOut heap0 5 3 bitsFour true bitsOne [7]).2 = false :=
  init_starts_idle_unbegun heap0 5 3 bitsFour true bitsOne [7] (by decide)

end Hivemind
